import Mathlib

/-!
Shallow embedding of qsa/rtxi.py (the RTXI experiment view: count,
get_measurement, average) with exact rational arithmetic in place of
floating point, and an explicit scalar/array value type mirroring numpy
broadcasting.
-/

namespace Qsa

/-- One segment of a trace: aligned time/stimulation/response arrays. -/
structure Seg where
  time : List ℚ
  stimulation : List ℚ
  response : List ℚ
deriving DecidableEq, Repr, Inhabited

/-- One recorded trace with its three segments (step, multisine, drop). -/
structure Trace where
  step : Seg
  multisine : Seg
  drop : Seg
deriving DecidableEq, Repr, Inhabited

/-- A numpy value: either a scalar (such as the accumulator 0 in average)
or a one-dimensional array. -/
inductive NpVal where
  | scalar (q : ℚ)
  | array (qs : List ℚ)
deriving DecidableEq, Repr, Inhabited

/-- numpy addition with scalar/array broadcasting. -/
def NpVal.add : NpVal → NpVal → NpVal
  | NpVal.scalar a, NpVal.scalar b => NpVal.scalar (a + b)
  | NpVal.scalar a, NpVal.array bs => NpVal.array (bs.map (fun b => a + b))
  | NpVal.array as, NpVal.scalar b => NpVal.array (as.map (fun a => a + b))
  | NpVal.array as, NpVal.array bs => NpVal.array (List.zipWith (fun a b => a + b) as bs)

/-- numpy division of a value by a scalar. -/
def NpVal.divs : NpVal → ℚ → NpVal
  | NpVal.scalar a, n => NpVal.scalar (a / n)
  | NpVal.array as, n => NpVal.array (as.map (fun a => a / n))

/-- The qsa.measurement.Measurement collaborator: construction stores the
six constructor arguments, readable afterwards. -/
structure Measurement where
  dt : ℚ
  duration : ℚ
  frequencies : List ℚ
  t : NpVal
  x : NpVal
  y : NpVal
deriving DecidableEq, Repr

/-- The errors raised by the experiment view: IndexError carrying the
offending index, and NotImplementedError for negative trace alternance. -/
inductive Err where
  | indexError (index : ℤ)
  | notImplementedError
deriving DecidableEq, Repr

instance {ε α : Type} [DecidableEq ε] [DecidableEq α] : DecidableEq (Except ε α) := fun a b =>
  match a, b with
  | Except.ok u, Except.ok v => decidable_of_iff (u = v) (by simp)
  | Except.error u, Except.error v => decidable_of_iff (u = v) (by simp)
  | Except.ok _, Except.error _ => isFalse (by simp)
  | Except.error _, Except.ok _ => isFalse (by simp)

/-- The decoded JSON record consumed by the Experiment constructor. -/
structure RawRecord where
  version : String
  dt : ℚ
  duration : ℚ
  frequencies : List ℚ
  amplitudes : List ℚ
  phases : List ℚ
  rest_level : ℚ
  step_level : ℚ
  step_delay : ℚ
  drop_delay : ℚ
  trace_count : ℤ
  trace_pause : ℚ
  trace_alternance : ℤ
  traces : List Trace
deriving DecidableEq, Repr

/-- The Experiment object state after the constructor ran. -/
structure Experiment where
  version : String
  dt : ℚ
  duration : ℚ
  frequencies : List ℚ
  amplitudes : List ℚ
  phases : List ℚ
  rest_level : ℚ
  step_level : ℚ
  step_delay : ℚ
  drop_delay : ℚ
  trace_count : ℤ
  trace_pause : ℚ
  trace_alternance : ℤ
  traces : List Trace
deriving DecidableEq, Repr

/-- The per-trace body of the constructor loop: each of the nine arrays is
copied verbatim (numpy.array of a list of numbers is modelled as the list
itself). -/
def buildTrace (tr : Trace) : Trace :=
  { step := { time := tr.step.time, stimulation := tr.step.stimulation,
              response := tr.step.response },
    multisine := { time := tr.multisine.time, stimulation := tr.multisine.stimulation,
                   response := tr.multisine.response },
    drop := { time := tr.drop.time, stimulation := tr.drop.stimulation,
              response := tr.drop.response } }

/-- Experiment constructor on an already-decoded record: copies every
scalar field and builds one trace per element of the traces array. -/
def Experiment.ofRecord (j : RawRecord) : Experiment :=
  { version := j.version, dt := j.dt, duration := j.duration,
    frequencies := j.frequencies, amplitudes := j.amplitudes, phases := j.phases,
    rest_level := j.rest_level, step_level := j.step_level,
    step_delay := j.step_delay, drop_delay := j.drop_delay,
    trace_count := j.trace_count, trace_pause := j.trace_pause,
    trace_alternance := j.trace_alternance,
    traces := j.traces.map buildTrace }

/-- Experiment.count: the length of the traces list. -/
def Experiment.count (e : Experiment) : ℕ :=
  e.traces.length

/-- Trace lookup after a bounds check has passed (list indexing in the
source; the default is never reached on validated indices). -/
def Experiment.traceAt (e : Experiment) (index : ℤ) : Trace :=
  e.traces.getD index.toNat default

/-- The multisine time array of trace index. -/
def Experiment.msTime (e : Experiment) (index : ℤ) : List ℚ :=
  (e.traceAt index).multisine.time

/-- The multisine stimulation array of trace index. -/
def Experiment.msStim (e : Experiment) (index : ℤ) : List ℚ :=
  (e.traceAt index).multisine.stimulation

/-- The multisine response array of trace index. -/
def Experiment.msResp (e : Experiment) (index : ℤ) : List ℚ :=
  (e.traceAt index).multisine.response

/-- Experiment.get_measurement: bounds-check the index, then wrap the
multisine segment of that trace together with dt, duration, frequencies. -/
def Experiment.get_measurement (e : Experiment) (index : ℤ) : Except Err Measurement :=
  if index < 0 ∨ (e.traces.length : ℤ) ≤ index then
    Except.error (Err.indexError index)
  else
    Except.ok { dt := e.dt, duration := e.duration, frequencies := e.frequencies,
                t := NpVal.array (e.msTime index),
                x := NpVal.array (e.msStim index),
                y := NpVal.array (e.msResp index) }

/-- The accumulation loop of Experiment.average: for each index in order,
bounds-check it, fetch the measurement, and add each of its three arrays
divided by n to the running accumulators. -/
def averageLoop (e : Experiment) (n : ℚ) :
    List ℤ → NpVal → NpVal → NpVal → Except Err (NpVal × NpVal × NpVal)
  | [], t, x, y => Except.ok (t, x, y)
  | index :: rest, t, x, y =>
    if index < 0 ∨ (e.traces.length : ℤ) ≤ index then
      Except.error (Err.indexError index)
    else
      match e.get_measurement index with
      | Except.error err => Except.error err
      | Except.ok m =>
          averageLoop e n rest (t.add (m.t.divs n)) (x.add (m.x.divs n)) (y.add (m.y.divs n))

/-- Experiment.average: reject negative trace alternance, then accumulate
t, x, y from scalar 0 over the supplied indices with n = the number of
indices, and wrap the result in a Measurement with the experiment-wide
metadata. -/
def Experiment.average (e : Experiment) (indices : List ℤ) : Except Err Measurement :=
  if e.trace_alternance < 0 then
    Except.error Err.notImplementedError
  else
    let n : ℚ := (indices.length : ℚ)
    match averageLoop e n indices (NpVal.scalar 0) (NpVal.scalar 0) (NpVal.scalar 0) with
    | Except.error err => Except.error err
    | Except.ok (t, x, y) =>
        Except.ok { dt := e.dt, duration := e.duration, frequencies := e.frequencies,
                    t := t, x := x, y := y }

/-- The elementwise arithmetic mean of a list of rows over positions
0..L-1: at each position, the sum across rows divided by the number of
rows. -/
def elemMean (rows : List (List ℚ)) (L : ℕ) : List ℚ :=
  (List.range L).map (fun k => (rows.map (fun r => r.getD k 0)).sum / (rows.length : ℚ))

/-- One step of the elementwise accumulation on plain lists. -/
def accRow (n : ℚ) (a r : List ℚ) : List ℚ :=
  List.zipWith (fun p q => p + q / n) a r

lemma get_measurement_ok (e : Experiment) (index : ℤ)
    (h0 : 0 ≤ index) (h1 : index < (e.traces.length : ℤ)) :
    e.get_measurement index = Except.ok
      { dt := e.dt, duration := e.duration, frequencies := e.frequencies,
        t := NpVal.array (e.msTime index), x := NpVal.array (e.msStim index),
        y := NpVal.array (e.msResp index) } := by
  unfold Experiment.get_measurement
  rw [if_neg (by omega)]

lemma averageLoop_ok (e : Experiment) (n : ℚ) (indices : List ℤ) :
    ∀ t x y : NpVal, (∀ i ∈ indices, 0 ≤ i ∧ i < (e.traces.length : ℤ)) →
    averageLoop e n indices t x y = Except.ok
      (indices.foldl (fun a i => a.add ((NpVal.array (e.msTime i)).divs n)) t,
       indices.foldl (fun a i => a.add ((NpVal.array (e.msStim i)).divs n)) x,
       indices.foldl (fun a i => a.add ((NpVal.array (e.msResp i)).divs n)) y) := by
  induction indices with
  | nil => intro t x y _; rfl
  | cons index rest ih =>
    intro t x y h
    obtain ⟨h0, h1⟩ := h index (List.mem_cons_self index rest)
    rw [averageLoop, if_neg (by omega), get_measurement_ok e index h0 h1]
    simp only [List.foldl_cons]
    exact ih _ _ _ (fun i hi => h i (List.mem_cons_of_mem index hi))

lemma sumRows_length (n : ℚ) (L : ℕ) (rows : List (List ℚ)) :
    ∀ ts : List ℚ, ts.length = L → (∀ r ∈ rows, r.length = L) →
    (rows.foldl (accRow n) ts).length = L := by
  induction rows with
  | nil => intro ts hts _; simpa using hts
  | cons r rest ih =>
    intro ts hts h
    rw [List.foldl_cons]
    refine ih _ ?_ (fun r2 hr2 => h r2 (List.mem_cons_of_mem r hr2))
    rw [accRow, List.length_zipWith, hts, h r (List.mem_cons_self r rest)]
    omega

lemma accRow_getD (n : ℚ) (a r : List ℚ) (k : ℕ)
    (ha : k < a.length) (hr : k < r.length) :
    (accRow n a r).getD k 0 = a.getD k 0 + r.getD k 0 / n := by
  have hlen : k < (accRow n a r).length := by
    rw [accRow, List.length_zipWith]; omega
  rw [List.getD_eq_getElem _ _ hlen, List.getD_eq_getElem _ _ ha,
    List.getD_eq_getElem _ _ hr]
  exact List.getElem_zipWith

lemma sumRows_getD (n : ℚ) (L : ℕ) (rows : List (List ℚ)) :
    ∀ ts : List ℚ, ts.length = L → (∀ r ∈ rows, r.length = L) →
    ∀ k, k < L →
    (rows.foldl (accRow n) ts).getD k 0
      = ts.getD k 0 + (rows.map (fun r => r.getD k 0 / n)).sum := by
  induction rows with
  | nil => intro ts _ _ k _; simp
  | cons r rest ih =>
    intro ts hts h k hk
    have hlen : (accRow n ts r).length = L := by
      rw [accRow, List.length_zipWith, hts, h r (List.mem_cons_self r rest)]; omega
    rw [List.foldl_cons,
      ih _ hlen (fun r2 hr2 => h r2 (List.mem_cons_of_mem r hr2)) k hk,
      accRow_getD n ts r k (by omega) (by rw [h r (List.mem_cons_self r rest)]; omega)]
    simp [add_assoc]

lemma foldl_npadd_arrays (n : ℚ) (rows : List (List ℚ)) :
    ∀ ts : List ℚ,
    rows.foldl (fun a r => a.add ((NpVal.array r).divs n)) (NpVal.array ts)
      = NpVal.array (rows.foldl (accRow n) ts) := by
  induction rows with
  | nil => intro ts; rfl
  | cons r rest ih =>
    intro ts
    rw [List.foldl_cons, List.foldl_cons]
    have h1 : (NpVal.array ts).add ((NpVal.array r).divs n) = NpVal.array (accRow n ts r) := by
      simp [NpVal.add, NpVal.divs, accRow, List.zipWith_map_right]
    rw [h1]
    exact ih _

lemma foldl_npadd_scalar (n : ℚ) (r0 : List ℚ) (rest : List (List ℚ)) :
    (r0 :: rest).foldl (fun a r => a.add ((NpVal.array r).divs n)) (NpVal.scalar 0)
      = NpVal.array (rest.foldl (accRow n) (r0.map (fun q => q / n))) := by
  rw [List.foldl_cons]
  have h1 : (NpVal.scalar 0).add ((NpVal.array r0).divs n)
      = NpVal.array (r0.map (fun q => q / n)) := by
    simp [NpVal.add, NpVal.divs]
  rw [h1]
  exact foldl_npadd_arrays n rest _

lemma sum_div_rows (rows : List (List ℚ)) (k : ℕ) (n : ℚ) :
    (rows.map (fun r => r.getD k 0 / n)).sum = (rows.map (fun r => r.getD k 0)).sum / n := by
  induction rows with
  | nil => simp
  | cons r rest ih =>
    rw [List.map_cons, List.sum_cons, List.map_cons, List.sum_cons, ih, add_div]

lemma foldl_scalar_eq_elemMean (n : ℚ) (L : ℕ) (rows : List (List ℚ))
    (hn : n = (rows.length : ℚ))
    (hrows : ∀ r ∈ rows, r.length = L) (hne : rows ≠ []) :
    rows.foldl (fun a r => a.add ((NpVal.array r).divs n)) (NpVal.scalar 0)
      = NpVal.array (elemMean rows L) := by
  match rows, hne with
  | r0 :: rest, _ =>
    have hr0 : r0.length = L := hrows r0 (List.mem_cons_self r0 rest)
    have hrest : ∀ r ∈ rest, r.length = L :=
      fun r hr => hrows r (List.mem_cons_of_mem r0 hr)
    have hlen0 : (r0.map (fun q => q / n)).length = L := by simpa using hr0
    rw [foldl_npadd_scalar]
    congr 1
    apply List.ext_getElem
    · rw [sumRows_length n L rest _ hlen0 hrest]
      simp [elemMean]
    · intro k hk1 hk2
      have hk : k < L := by rwa [sumRows_length n L rest _ hlen0 hrest] at hk1
      rw [← List.getD_eq_getElem _ 0 hk1, ← List.getD_eq_getElem _ 0 hk2,
        sumRows_getD n L rest _ hlen0 hrest k hk]
      have hmap : (r0.map (fun q => q / n)).getD k 0 = r0.getD k 0 / n := by
        rw [List.getD_eq_getElem _ 0 (by omega : k < (r0.map (fun q => q / n)).length),
          List.getD_eq_getElem _ 0 (by omega : k < r0.length)]
        simp
      have hrange : (elemMean (r0 :: rest) L).getD k 0
          = ((r0 :: rest).map (fun r => r.getD k 0)).sum / ((r0 :: rest).length : ℚ) := by
        rw [elemMean, List.getD_eq_getElem _ 0 (by simpa using hk)]
        simp
      rw [hmap, hrange, ← hn]
      rw [show ((r0 :: rest).map (fun r => r.getD k 0)).sum
          = r0.getD k 0 + (rest.map (fun r => r.getD k 0)).sum by simp]
      rw [sum_div_rows, add_div]

lemma average_ok_elemMean (e : Experiment) (indices : List ℤ) (L : ℕ)
    (halt : 0 ≤ e.trace_alternance) (hne : indices ≠ [])
    (hvalid : ∀ i ∈ indices, 0 ≤ i ∧ i < (e.traces.length : ℤ))
    (hT : ∀ i ∈ indices, (e.msTime i).length = L)
    (hX : ∀ i ∈ indices, (e.msStim i).length = L)
    (hY : ∀ i ∈ indices, (e.msResp i).length = L) :
    e.average indices = Except.ok
      { dt := e.dt, duration := e.duration, frequencies := e.frequencies,
        t := NpVal.array (elemMean (indices.map e.msTime) L),
        x := NpVal.array (elemMean (indices.map e.msStim) L),
        y := NpVal.array (elemMean (indices.map e.msResp) L) } := by
  have halt2 : ¬ e.trace_alternance < 0 := by omega
  have hfold : ∀ f : ℤ → List ℚ, (∀ i ∈ indices, (f i).length = L) →
      indices.foldl
        (fun a i => a.add ((NpVal.array (f i)).divs ((indices.length : ℕ) : ℚ)))
        (NpVal.scalar 0)
      = NpVal.array (elemMean (indices.map f) L) := by
    intro f hf
    have h1 : indices.foldl
        (fun a i => a.add ((NpVal.array (f i)).divs ((indices.length : ℕ) : ℚ)))
        (NpVal.scalar 0)
        = (indices.map f).foldl
          (fun a r => a.add ((NpVal.array r).divs ((indices.length : ℕ) : ℚ)))
          (NpVal.scalar 0) :=
      (List.foldl_map f
        (fun (a : NpVal) (r : List ℚ) =>
          a.add ((NpVal.array r).divs ((indices.length : ℕ) : ℚ)))
        indices (NpVal.scalar 0)).symm
    rw [h1]
    exact foldl_scalar_eq_elemMean _ L (indices.map f) (by simp)
      (fun r hr => by obtain ⟨i, hi, rfl⟩ := List.mem_map.mp hr; exact hf i hi)
      (by simpa using hne)
  simp only [Experiment.average, if_neg halt2,
    averageLoop_ok e _ indices _ _ _ hvalid]
  rw [hfold e.msTime hT, hfold e.msStim hX, hfold e.msResp hY]

lemma averageLoop_invalid (e : Experiment) (n : ℚ) (bad : ℤ) (rest : List ℤ)
    (hbad : bad < 0 ∨ (e.traces.length : ℤ) ≤ bad) :
    ∀ (pre : List ℤ), (∀ i ∈ pre, 0 ≤ i ∧ i < (e.traces.length : ℤ)) →
    ∀ t x y, averageLoop e n (pre ++ bad :: rest) t x y
      = Except.error (Err.indexError bad) := by
  intro pre
  induction pre with
  | nil =>
    intro _ t x y
    rw [List.nil_append, averageLoop, if_pos (by omega)]
  | cons p ps ih =>
    intro h t x y
    obtain ⟨h0, h1⟩ := h p (List.mem_cons_self p ps)
    rw [List.cons_append, averageLoop, if_neg (by omega), get_measurement_ok e p h0 h1]
    exact ih (fun i hi => h i (List.mem_cons_of_mem p hi)) _ _ _

lemma elemMean_perm (rows1 rows2 : List (List ℚ)) (L : ℕ) (h : rows1.Perm rows2) :
    elemMean rows1 L = elemMean rows2 L := by
  unfold elemMean
  congr 1
  funext k
  rw [h.length_eq, (h.map (fun r => r.getD k 0)).sum_eq]

/-- Empty segment used for the step and drop parts of the example traces. -/
def emptySeg : Seg := { time := [], stimulation := [], response := [] }

/-- First example trace: multisine response is the array 1, 2, 3. -/
def exTrace1 : Trace :=
  { step := emptySeg,
    multisine := { time := [0, 1, 2], stimulation := [10, 20, 30], response := [1, 2, 3] },
    drop := emptySeg }

/-- Second example trace: multisine response is the array 3, 4, 5, with
the same time and stimulation arrays as the first. -/
def exTrace2 : Trace :=
  { step := emptySeg,
    multisine := { time := [0, 1, 2], stimulation := [10, 20, 30], response := [3, 4, 5] },
    drop := emptySeg }

/-- The two-trace example experiment of the concrete averaging scenario:
trace count 2, alternance 0. -/
def exExperiment : Experiment :=
  { version := "v1", dt := 1, duration := 3, frequencies := [5],
    amplitudes := [1], phases := [0], rest_level := 0, step_level := 0,
    step_delay := 0, drop_delay := 0, trace_count := 2, trace_pause := 0,
    trace_alternance := 0, traces := [exTrace1, exTrace2] }

/-- The same experiment with a negative trace alternance. -/
def exNegAlt : Experiment :=
  { exExperiment with trace_alternance := -1 }

/-- A well-formed raw record whose traces array length matches its
trace count field. -/
def exRecord : RawRecord :=
  { version := "v1", dt := 1, duration := 3, frequencies := [5],
    amplitudes := [1], phases := [0], rest_level := 0, step_level := 0,
    step_delay := 0, drop_delay := 0, trace_count := 2, trace_pause := 0,
    trace_alternance := 0, traces := [exTrace1, exTrace2] }

/-- Claim C1: for an experiment with non-negative trace alternance and a
non-empty list of valid indices over traces whose multisine arrays all
have length L, average returns the Measurement whose t, x, y arrays are
the elementwise arithmetic mean of the selected traces' time,
stimulation, response arrays (each selected trace contributing weight
1 over the number of indices), carrying the experiment-wide dt,
duration, frequencies. -/
theorem average_elementwise_mean (e : Experiment) (indices : List ℤ) (L : ℕ)
    (halt : 0 ≤ e.trace_alternance) (hne : indices ≠ [])
    (hvalid : ∀ i ∈ indices, 0 ≤ i ∧ i < (e.count : ℤ))
    (hlen : ∀ i ∈ indices, (e.msTime i).length = L ∧ (e.msStim i).length = L ∧
      (e.msResp i).length = L) :
    e.average indices = Except.ok
      { dt := e.dt, duration := e.duration, frequencies := e.frequencies,
        t := NpVal.array (elemMean (indices.map e.msTime) L),
        x := NpVal.array (elemMean (indices.map e.msStim) L),
        y := NpVal.array (elemMean (indices.map e.msResp) L) } :=
  average_ok_elemMean e indices L halt hne hvalid (fun i h => (hlen i h).1)
    (fun i h => (hlen i h).2.1) (fun i h => (hlen i h).2.2)

/-- Witness for C1: the two-trace scenario with responses 1,2,3 and
3,4,5 averages over indices 0,1 to response 2,3,4 with t identical to
either input's t. -/
theorem average_elementwise_mean_witness :
    ((0 : ℤ) ≤ exExperiment.trace_alternance ∧ ([0, 1] : List ℤ) ≠ []) ∧
    exExperiment.average [0, 1] = Except.ok
      { dt := 1, duration := 3, frequencies := [5],
        t := NpVal.array [0, 1, 2], x := NpVal.array [10, 20, 30],
        y := NpVal.array [2, 3, 4] } :=
  ⟨⟨by decide, by decide⟩, by
    have h := average_elementwise_mean exExperiment [0, 1] 3 (by decide) (by decide)
      (by decide) (by decide)
    rw [h]
    simp [exExperiment, exTrace1, exTrace2, emptySeg, Experiment.msTime,
      Experiment.msStim, Experiment.msResp, Experiment.traceAt, elemMean,
      List.range_succ]
    norm_num⟩

/-- Claim C2: for a valid index i and non-negative trace alternance,
average on the single-element list i equals get_measurement i. -/
theorem average_singleton_eq_get_measurement (e : Experiment) (i : ℤ)
    (halt : 0 ≤ e.trace_alternance) (h0 : 0 ≤ i) (h1 : i < (e.count : ℤ)) :
    e.average [i] = e.get_measurement i := by
  have halt2 : ¬ e.trace_alternance < 0 := by omega
  have h1l : i < (e.traces.length : ℤ) := h1
  have hv : ∀ j ∈ ([i] : List ℤ), 0 ≤ j ∧ j < (e.traces.length : ℤ) := by
    intro j hj
    rw [List.mem_singleton] at hj
    subst hj
    exact ⟨h0, h1l⟩
  simp only [Experiment.average, if_neg halt2, averageLoop_ok e _ [i] _ _ _ hv]
  rw [get_measurement_ok e i h0 h1l]
  simp [NpVal.add, NpVal.divs]

/-- Witness for C2: averaging the single index 0 in the example
experiment gives exactly get_measurement 0. -/
theorem average_singleton_eq_get_measurement_witness :
    ((0 : ℤ) ≤ exExperiment.trace_alternance ∧ (0 : ℤ) ≤ 0 ∧
      (0 : ℤ) < (exExperiment.count : ℤ)) ∧
    exExperiment.average [0] = exExperiment.get_measurement 0 :=
  ⟨⟨by decide, by decide, by decide⟩,
    average_singleton_eq_get_measurement exExperiment 0 (by decide) (by decide) (by decide)⟩

/-- Claim C3: average is order-independent: on a list of valid indices
over traces of equal array lengths, any permutation of the list gives
an identical result. -/
theorem average_perm_invariant (e : Experiment) (l1 l2 : List ℤ) (L : ℕ)
    (hperm : l1.Perm l2)
    (hvalid : ∀ i ∈ l1, 0 ≤ i ∧ i < (e.count : ℤ))
    (hlen : ∀ i ∈ l1, (e.msTime i).length = L ∧ (e.msStim i).length = L ∧
      (e.msResp i).length = L) :
    e.average l1 = e.average l2 := by
  by_cases halt : e.trace_alternance < 0
  · simp [Experiment.average, halt]
  · rcases eq_or_ne l1 [] with h | h
    · subst h
      rw [hperm.symm.eq_nil]
    · have h2 : l2 ≠ [] := fun hh => h (by rw [hh] at hperm; exact hperm.eq_nil)
      have hvalid2 : ∀ i ∈ l2, 0 ≤ i ∧ i < (e.count : ℤ) :=
        fun i hi => hvalid i (hperm.mem_iff.mpr hi)
      have hlen2 : ∀ i ∈ l2, (e.msTime i).length = L ∧ (e.msStim i).length = L ∧
          (e.msResp i).length = L :=
        fun i hi => hlen i (hperm.mem_iff.mpr hi)
      rw [average_ok_elemMean e l1 L (by omega) h hvalid (fun i hi => (hlen i hi).1)
          (fun i hi => (hlen i hi).2.1) (fun i hi => (hlen i hi).2.2),
        average_ok_elemMean e l2 L (by omega) h2 hvalid2 (fun i hi => (hlen2 i hi).1)
          (fun i hi => (hlen2 i hi).2.1) (fun i hi => (hlen2 i hi).2.2),
        elemMean_perm _ _ L (hperm.map e.msTime),
        elemMean_perm _ _ L (hperm.map e.msStim),
        elemMean_perm _ _ L (hperm.map e.msResp)]

/-- Witness for C3: averaging indices 0,1 equals averaging indices 1,0
in the example experiment. -/
theorem average_perm_invariant_witness :
    List.Perm [0, 1] [1, 0] ∧
    exExperiment.average [0, 1] = exExperiment.average [1, 0] :=
  ⟨List.Perm.swap 1 0 [],
    average_perm_invariant exExperiment [0, 1] [1, 0] 3 (List.Perm.swap 1 0 [])
      (by decide) (by decide)⟩

/-- Claim C4: with negative trace alternance, average on any non-empty
index list raises NotImplementedError, before any accumulation. -/
theorem average_neg_alternance_nonempty (e : Experiment) (indices : List ℤ)
    (halt : e.trace_alternance < 0) ( _hne : indices ≠ []) :
    e.average indices = Except.error Err.notImplementedError := by
  simp [Experiment.average, halt]

/-- Witness for C4: the negative-alternance example errors on the
non-empty valid index list containing 0. -/
theorem average_neg_alternance_nonempty_witness :
    (exNegAlt.trace_alternance < 0 ∧ ([0] : List ℤ) ≠ []) ∧
    exNegAlt.average [0] = Except.error Err.notImplementedError :=
  ⟨⟨by decide, by decide⟩,
    average_neg_alternance_nonempty exNegAlt [0] (by decide) (by decide)⟩

/-- Claim C5: with non-negative alternance, on a list made of valid
indices followed by a first invalid index and then anything, average
raises IndexError citing that first invalid index. -/
theorem average_first_invalid_index (e : Experiment) (pre : List ℤ) (bad : ℤ)
    (rest : List ℤ) (halt : 0 ≤ e.trace_alternance)
    (hpre : ∀ i ∈ pre, 0 ≤ i ∧ i < (e.count : ℤ))
    (hbad : bad < 0 ∨ (e.count : ℤ) ≤ bad) :
    e.average (pre ++ bad :: rest) = Except.error (Err.indexError bad) := by
  have halt2 : ¬ e.trace_alternance < 0 := by omega
  simp only [Experiment.average, if_neg halt2,
    averageLoop_invalid e _ bad rest hbad pre hpre _ _ _]

/-- Witness for C5: in the two-trace example, average on the list 0, 2
errors citing index 2 (the count), after validating index 0. -/
theorem average_first_invalid_index_witness :
    ((2 : ℤ) < 0 ∨ (exExperiment.count : ℤ) ≤ 2) ∧
    exExperiment.average [0, 2] = Except.error (Err.indexError 2) :=
  ⟨by decide,
    average_first_invalid_index exExperiment [0] 2 [] (by decide) (by decide) (by decide)⟩

/-- Claim C6: get_measurement errors with IndexError carrying the index
exactly when the index is negative or at least count. -/
theorem get_measurement_error_iff (e : Experiment) (index : ℤ) :
    e.get_measurement index = Except.error (Err.indexError index)
      ↔ (index < 0 ∨ (e.count : ℤ) ≤ index) := by
  unfold Experiment.get_measurement
  by_cases h : index < 0 ∨ (e.traces.length : ℤ) ≤ index
  · simp [h, Experiment.count]
  · simp [h, Experiment.count]

/-- Claim C7: for a valid index, get_measurement returns the Measurement
carrying dt, duration, frequencies from the experiment and the time,
stimulation, response arrays of that trace's multisine segment
unchanged. -/
theorem get_measurement_copy_through (e : Experiment) (index : ℤ)
    (h0 : 0 ≤ index) (h1 : index < (e.count : ℤ)) :
    e.get_measurement index = Except.ok
      { dt := e.dt, duration := e.duration, frequencies := e.frequencies,
        t := NpVal.array (e.traceAt index).multisine.time,
        x := NpVal.array (e.traceAt index).multisine.stimulation,
        y := NpVal.array (e.traceAt index).multisine.response } :=
  get_measurement_ok e index h0 h1

/-- Witness for C7: get_measurement 1 in the example returns trace 1's
multisine arrays and the experiment metadata. -/
theorem get_measurement_copy_through_witness :
    ((0 : ℤ) ≤ 1 ∧ (1 : ℤ) < (exExperiment.count : ℤ)) ∧
    exExperiment.get_measurement 1 = Except.ok
      { dt := 1, duration := 3, frequencies := [5],
        t := NpVal.array [0, 1, 2], x := NpVal.array [10, 20, 30],
        y := NpVal.array [3, 4, 5] } :=
  ⟨⟨by decide, by decide⟩,
    get_measurement_copy_through exExperiment 1 (by decide) (by decide)⟩

/-- Claim C8: for a well-formed record whose traces array length equals
its trace count field, count on the constructed experiment equals the
trace count metadata. -/
theorem count_eq_trace_count (j : RawRecord)
    (hwf : (j.traces.length : ℤ) = j.trace_count) :
    ((Experiment.ofRecord j).count : ℤ) = (Experiment.ofRecord j).trace_count := by
  simpa [Experiment.count, Experiment.ofRecord] using hwf

/-- Witness for C8: the example record has two traces and trace count 2,
and count on the constructed experiment is 2. -/
theorem count_eq_trace_count_witness :
    ((exRecord.traces.length : ℤ) = exRecord.trace_count) ∧
    ((Experiment.ofRecord exRecord).count : ℤ) = (Experiment.ofRecord exRecord).trace_count :=
  ⟨by decide, count_eq_trace_count exRecord (by decide)⟩

/-- Claim C9: with non-negative alternance, average on the empty list
raises no error and returns the Measurement whose t, x, y are the
scalar zero, not zero-filled arrays. -/
theorem average_empty_scalar_zero (e : Experiment) (halt : 0 ≤ e.trace_alternance) :
    e.average [] = Except.ok
      { dt := e.dt, duration := e.duration, frequencies := e.frequencies,
        t := NpVal.scalar 0, x := NpVal.scalar 0, y := NpVal.scalar 0 } := by
  have halt2 : ¬ e.trace_alternance < 0 := by omega
  simp [Experiment.average, if_neg halt2, averageLoop]

/-- Witness for C9: the empty average on the example experiment returns
the scalar-zero Measurement. -/
theorem average_empty_scalar_zero_witness :
    ((0 : ℤ) ≤ exExperiment.trace_alternance) ∧
    exExperiment.average [] = Except.ok
      { dt := 1, duration := 3, frequencies := [5],
        t := NpVal.scalar 0, x := NpVal.scalar 0, y := NpVal.scalar 0 } :=
  ⟨by decide, average_empty_scalar_zero exExperiment (by decide)⟩

/-- Claim C10: with negative trace alternance, average raises
NotImplementedError for every index list whatsoever, so IndexError is
never raised in that mode. -/
theorem average_neg_alternance_all (e : Experiment) (indices : List ℤ)
    (halt : e.trace_alternance < 0) :
    e.average indices = Except.error Err.notImplementedError := by
  simp [Experiment.average, halt]

/-- Witness for C10: the negative-alternance example errors with
NotImplementedError on the empty list and on a list with the
out-of-range index 99. -/
theorem average_neg_alternance_all_witness :
    (exNegAlt.trace_alternance < 0) ∧
    exNegAlt.average [] = Except.error Err.notImplementedError ∧
    exNegAlt.average [99] = Except.error Err.notImplementedError :=
  ⟨by decide, average_neg_alternance_all exNegAlt [] (by decide),
    average_neg_alternance_all exNegAlt [99] (by decide)⟩

end Qsa
